import Mathlib

/-!
Verification development for the placement-tracker application (`src/app.py`).

The program keeps a flat list of application records (Python dicts with 11
keys) in `st.session_state.applications`, mutates them through small helper
functions (`get_app_index`, `move_app`, `delete_app`, `update_app_field`,
the new-application form handler), and persists them to a Google Sheet
(`save_data` / `load_data`) as 11 fixed columns with ISO-encoded date/time
cells.

The embedding below translates those functions into pure Lean functions:
- Python dict values are modelled by the dynamic type `Value`
  (string / `datetime.date` / `datetime.time` / `None`);
- the session list is an explicit `List AppRecord` argument/result;
- Streamlit banners (`st.success` / `st.warning` / `st.error`) are modelled
  as an optional `Notice` result (their exact texts are kept except that
  quote characters inside messages are dropped);
- the sheet is a list of rows, each row a list of `Option String` cells
  (`none` = blank cell / NaN);
- exceptions caught by `try/except` blocks are modelled with `Except`.

Date/time string handling: `save_data` writes `date.isoformat()`
(`YYYY-MM-DD`) and `time.isoformat()` (`HH:MM:SS`, microseconds never occur
here); `load_data` parses date cells with `pd.to_datetime` with coercion of errors
and time cells with the strict format `%H:%M:%S`.  The parsers below model
the ISO subset of those grammars that the program itself can produce, with
the documented pandas `Timestamp` year bounds; `datetime.date.fromisoformat`
and `datetime.time.fromisoformat` (used by the string-sniffing fallback of
`update_app_field`) are modelled with their strict `YYYY-MM-DD` /
`HH:MM[:SS]` grammars (CPython 3.10 semantics, no fractional seconds —
a fractional form cannot fit the 8-character sniffing bound anyway).
-/

namespace PlacementTracker

/-- Python `datetime.date` (a year/month/day triple; validity is checked by
the parsers, not by the type). -/
structure PyDate where
  year : Nat
  month : Nat
  day : Nat
deriving DecidableEq

/-- Python `datetime.time` (no microseconds: the program never produces
fractional times — `st.time_input` and the sniffing bound exclude them). -/
structure PyTime where
  hour : Nat
  minute : Nat
  second : Nat
deriving DecidableEq

/-- A dynamic Python value as stored in an application dict: a string, a
`datetime.date`, a `datetime.time`, or `None`. -/
inductive Value where
  | vstr (s : String)
  | vdate (d : PyDate)
  | vtime (t : PyTime)
  | vnone
deriving DecidableEq

/-- The 11 keys of an application dict, in the fixed column order used by
`save_data` (`all_cols` in the source). -/
inductive Field where
  | id
  | company
  | role
  | status
  | applied_note
  | ppt_note
  | ppt_date
  | ppt_time
  | test_note
  | test_date
  | test_time
deriving DecidableEq

/-- One application record: the Python dict with its 11 keys.  Field values
are dynamic (`Value`) exactly as in Python. -/
structure AppRecord where
  id : Value
  company : Value
  role : Value
  status : Value
  applied_note : Value
  ppt_note : Value
  ppt_date : Value
  ppt_time : Value
  test_note : Value
  test_date : Value
  test_time : Value
deriving DecidableEq

/-- Read a dict entry. -/
def getField (r : AppRecord) : Field → Value
  | .id => r.id
  | .company => r.company
  | .role => r.role
  | .status => r.status
  | .applied_note => r.applied_note
  | .ppt_note => r.ppt_note
  | .ppt_date => r.ppt_date
  | .ppt_time => r.ppt_time
  | .test_note => r.test_note
  | .test_date => r.test_date
  | .test_time => r.test_time

/-- Overwrite a dict entry (`app[field_name] = v`). -/
def setField (r : AppRecord) (f : Field) (v : Value) : AppRecord :=
  match f with
  | .id => { r with id := v }
  | .company => { r with company := v }
  | .role => { r with role := v }
  | .status => { r with status := v }
  | .applied_note => { r with applied_note := v }
  | .ppt_note => { r with ppt_note := v }
  | .ppt_date => { r with ppt_date := v }
  | .ppt_time => { r with ppt_time := v }
  | .test_note => { r with test_note := v }
  | .test_date => { r with test_date := v }
  | .test_time => { r with test_time := v }

/-! ### Character and digit utilities -/

/-- The decimal digit character for `n < 10` (arguments are always reduced
`% 10` before use, so the default arm is unreachable). -/
def digitChar : Nat → Char
  | 0 => '0'
  | 1 => '1'
  | 2 => '2'
  | 3 => '3'
  | 4 => '4'
  | 5 => '5'
  | 6 => '6'
  | 7 => '7'
  | 8 => '8'
  | _ => '9'

/-- Two-digit zero-padded decimal rendering, as `strftime`-style `%02d`
used by `date.isoformat` / `time.isoformat` for month, day, hour, minute,
second. -/
def pad2L (n : Nat) : List Char :=
  [digitChar (n / 10 % 10), digitChar (n % 10)]

/-- Four-digit zero-padded decimal rendering for the year of
`date.isoformat` (Python years are at most 9999). -/
def pad4L (n : Nat) : List Char :=
  [digitChar (n / 1000 % 10), digitChar (n / 100 % 10),
   digitChar (n / 10 % 10), digitChar (n % 10)]

/-- Numeric value of a digit string (callers first check `isDigits`). -/
def digitsVal (l : List Char) : Nat :=
  l.foldl (fun a c => 10 * a + (c.toNat - 48)) 0

/-- Is this a nonempty all-digit character sequence? -/
def isDigits (l : List Char) : Bool :=
  !l.isEmpty && l.all Char.isDigit

/-- Parse a nonempty all-digit sequence to a number, `none` otherwise. -/
def digitsToNat? (l : List Char) : Option Nat :=
  if isDigits l then some (digitsVal l) else none

/-- Split a character list on a separator character (the list-level model of
`str.split` used by the ISO parsers). -/
def splitOnChar (c : Char) : List Char → List (List Char)
  | [] => [[]]
  | a :: as =>
    if a = c then [] :: splitOnChar c as
    else
      match splitOnChar c as with
      | [] => [[a]]
      | h :: t => (a :: h) :: t

/-! ### Calendar arithmetic (mirrors `datetime`'s validity rules) -/

/-- Gregorian leap-year test. -/
def isLeap (y : Nat) : Bool :=
  y % 4 == 0 && (y % 100 != 0 || y % 400 == 0)

/-- Days in a month of a given year. -/
def daysInMonth (y m : Nat) : Nat :=
  if m = 2 then (if isLeap y then 29 else 28)
  else if m = 4 ∨ m = 6 ∨ m = 9 ∨ m = 11 then 30
  else 31

/-- Validity of a `datetime.date` triple (CPython: year 1–9999). -/
def ValidDate (d : PyDate) : Prop :=
  1 ≤ d.year ∧ d.year ≤ 9999 ∧ 1 ≤ d.month ∧ d.month ≤ 12 ∧
    1 ≤ d.day ∧ d.day ≤ daysInMonth d.year d.month

instance : DecidablePred ValidDate := fun d => by
  unfold ValidDate; infer_instance

/-- A date that `pd.to_datetime` can represent: a valid date within the
`pd.Timestamp` year range (the full range is 1677-09-21 to 2262-04-11; the
model uses the years that are entirely inside it). -/
def TsDate (d : PyDate) : Prop :=
  ValidDate d ∧ 1678 ≤ d.year ∧ d.year ≤ 2261

instance : DecidablePred TsDate := fun d => by
  unfold TsDate; infer_instance

/-- Validity of a `datetime.time` triple. -/
def ValidTime (t : PyTime) : Prop :=
  t.hour < 24 ∧ t.minute < 60 ∧ t.second < 60

instance : DecidablePred ValidTime := fun t => by
  unfold ValidTime; infer_instance

/-! ### ISO printers (what `save_data` writes) -/

/-- Python `date.isoformat()` as a character list: `YYYY-MM-DD`. -/
def dateIsoL (d : PyDate) : List Char :=
  pad4L d.year ++ '-' :: (pad2L d.month ++ '-' :: pad2L d.day)

/-- Python `time.isoformat()` as a character list: `HH:MM:SS` (microseconds are
always zero here, so the short form never occurs). -/
def timeIsoL (t : PyTime) : List Char :=
  pad2L t.hour ++ ':' :: (pad2L t.minute ++ ':' :: pad2L t.second)

/-- Python `date.isoformat()`. -/
def dateIso (d : PyDate) : String := ⟨dateIsoL d⟩

/-- Python `time.isoformat()`. -/
def timeIso (t : PyTime) : String := ⟨timeIsoL t⟩

/-! ### Parsers used by `load_data` (pandas, `errors` set to coerce) -/

/-- One date cell under `pd.to_datetime(...).dt.date` with coercion,
restricted to the ISO `Y-M-D` forms the program writes: 4-digit year,
1–2 digit month and day, calendar-valid, within `pd.Timestamp` bounds.
Anything else coerces to `none` (NaT). -/
def parseDateL (l : List Char) : Option PyDate :=
  match splitOnChar '-' l with
  | [ys, ms, ds] =>
    if ys.length = 4 ∧ 1 ≤ ms.length ∧ ms.length ≤ 2 ∧
        1 ≤ ds.length ∧ ds.length ≤ 2 then
      match digitsToNat? ys, digitsToNat? ms, digitsToNat? ds with
      | some y, some m, some d =>
        if TsDate ⟨y, m, d⟩ then some ⟨y, m, d⟩ else none
      | _, _, _ => none
    else none
  | _ => none

/-- One time cell under `pd.to_datetime` with the strict format string
`%H:%M:%S`: three colon-separated 1–2 digit groups, hour below 24, minute
and second below 60.  Anything else coerces to `none` (NaT); in particular
`25:99:99` does. -/
def parseTimeL (l : List Char) : Option PyTime :=
  match splitOnChar ':' l with
  | [hs, ms, ss] =>
    if 1 ≤ hs.length ∧ hs.length ≤ 2 ∧ 1 ≤ ms.length ∧ ms.length ≤ 2 ∧
        1 ≤ ss.length ∧ ss.length ≤ 2 then
      match digitsToNat? hs, digitsToNat? ms, digitsToNat? ss with
      | some h, some m, some s =>
        if h < 24 ∧ m < 60 ∧ s < 60 then some ⟨h, m, s⟩ else none
      | _, _, _ => none
    else none
  | _ => none

/-- String wrapper for `parseDateL`. -/
def parseDateStr (s : String) : Option PyDate := parseDateL s.toList

/-- String wrapper for `parseTimeL`. -/
def parseTimeStr (s : String) : Option PyTime := parseTimeL s.toList

/-! ### Parsers used by the sniffing fallback (`datetime.fromisoformat`) -/

/-- Python `datetime.time.fromisoformat`: `HH:MM` or `HH:MM:SS` with two-digit
groups (fractional seconds cannot occur within the 8-character sniffing
bound).  `none` models the raised `ValueError`. -/
def timeFromIsoL (l : List Char) : Option PyTime :=
  match splitOnChar ':' l with
  | [hs, ms] =>
    if hs.length = 2 ∧ ms.length = 2 then
      match digitsToNat? hs, digitsToNat? ms with
      | some h, some m =>
        if h < 24 ∧ m < 60 then some ⟨h, m, 0⟩ else none
      | _, _ => none
    else none
  | [hs, ms, ss] =>
    if hs.length = 2 ∧ ms.length = 2 ∧ ss.length = 2 then
      match digitsToNat? hs, digitsToNat? ms, digitsToNat? ss with
      | some h, some m, some s =>
        if h < 24 ∧ m < 60 ∧ s < 60 then some ⟨h, m, s⟩ else none
      | _, _, _ => none
    else none
  | _ => none

/-- Python `datetime.date.fromisoformat`: strict `YYYY-MM-DD`.  `none` models the
raised `ValueError`. -/
def dateFromIsoL (l : List Char) : Option PyDate :=
  match splitOnChar '-' l with
  | [ys, ms, ds] =>
    if ys.length = 4 ∧ ms.length = 2 ∧ ds.length = 2 then
      match digitsToNat? ys, digitsToNat? ms, digitsToNat? ds with
      | some y, some m, some d =>
        if ValidDate ⟨y, m, d⟩ then some ⟨y, m, d⟩ else none
      | _, _, _ => none
    else none
  | _ => none

/-- String wrapper for `timeFromIsoL`. -/
def timeFromIso (s : String) : Option PyTime := timeFromIsoL s.toList

/-- String wrapper for `dateFromIsoL`. -/
def dateFromIso (s : String) : Option PyDate := dateFromIsoL s.toList

/-! ### List surgery (Python list assignment / `pop`) -/

/-- Replace the element at an index by applying a function
(`lst[i] = f(lst[i])`); out-of-range indices leave the list unchanged
(they never occur: indices come from `get_app_index`). -/
def listModify (f : α → α) : Nat → List α → List α
  | _, [] => []
  | 0, a :: as => f a :: as
  | n + 1, a :: as => a :: listModify f n as

/-- Remove the element at an index (`lst.pop(i)`); out-of-range indices
leave the list unchanged. -/
def listRemove : Nat → List α → List α
  | _, [] => []
  | 0, _ :: as => as
  | n + 1, a :: as => a :: listRemove n as

/-! ### Streamlit banners -/

/-- A Streamlit banner: `st.success`, `st.warning`, or `st.error`.  The
error kinds of the specification (`ValidationError`, `NotFoundError`, …)
are surfaced by the program only as `errorNote` banners. -/
inductive Notice where
  | successNote (msg : String)
  | warningNote (msg : String)
  | errorNote (msg : String)
deriving DecidableEq

/-- Python `str(value)` for the values that can appear in a record
(used when a banner message interpolates a field). -/
def valueStr : Value → String
  | .vstr s => s
  | .vdate d => dateIso d
  | .vtime t => timeIso t
  | .vnone => "None"

/-! ### Store operations (`src/app.py` lines 16–57 and the form handler) -/

/-- The `get_app_index` helper loop, carrying the running `enumerate` index. -/
def getAppIndexAux (app_id : String) : Nat → List AppRecord → Option Nat
  | _, [] => none
  | i, r :: rs =>
    if r.id = .vstr app_id then some i else getAppIndexAux app_id (i + 1) rs

/-- Model of `get_app_index(app_id)`: index of the first record whose `id` equals
`app_id`, `None` if there is none (linear scan with `enumerate`). -/
def get_app_index (apps : List AppRecord) (app_id : String) : Option Nat :=
  getAppIndexAux app_id 0 apps

/-- Model of `move_app(app_id, new_status)`: when the id is found, overwrite
`status` and show a success banner; when it is not found, do nothing and
show nothing (the `if index is not None` guard has no `else` branch). -/
def move_app (apps : List AppRecord) (app_id new_status : String) :
    List AppRecord × Option Notice :=
  match get_app_index apps app_id with
  | some i =>
    let apps2 := listModify (fun r => { r with status := .vstr new_status }) i apps
    let comp := match apps2.get? i with
      | some r => valueStr r.company
      | none => ""
    (apps2, some (.successNote ("Moved " ++ comp ++ " to " ++ new_status ++ "!")))
  | none => (apps, none)

/-- Model of `delete_app(app_id)`: when found, `pop` the record and show a warning
banner (the subsequent `st.rerun` is presentation only); when absent, a
silent no-op. -/
def delete_app (apps : List AppRecord) (app_id : String) :
    List AppRecord × Option Notice :=
  match get_app_index apps app_id with
  | some i =>
    let comp := match apps.get? i with
      | some r => valueStr r.company
      | none => ""
    (listRemove i apps, some (.warningNote ("Deleted " ++ comp ++ " application.")))
  | none => (apps, none)

/-- The string-sniffing coercion inside `update_app_field`: a string
containing a colon and at most 8 characters long is tried as an ISO
time-of-day, otherwise a string containing a dash is tried as an ISO date;
a failed parse (`ValueError`) keeps the raw string. -/
def coerceRaw (s : String) : Value :=
  if s.toList.contains ':' ∧ s.length ≤ 8 then
    match timeFromIso s with
    | some t => .vtime t
    | none => .vstr s
  else if s.toList.contains '-' then
    match dateFromIso s with
    | some d => .vdate d
    | none => .vstr s
  else .vstr s

/-- The `isinstance(new_value, str)` dispatch of `update_app_field`:
only string widget values go through the sniffing coercion. -/
def coerceWidget : Value → Value
  | .vstr s => coerceRaw s
  | v => v

/-- Model of `update_app_field(app_id, field_name)` with the widget value passed
explicitly (the source reads it from `st.session_state[widget_key]`):
when the id is found, store the (possibly coerced) value into the field;
when absent, a silent no-op with no banner. -/
def update_app_field (apps : List AppRecord) (app_id : String) (f : Field)
    (widget : Value) : List AppRecord :=
  match get_app_index apps app_id with
  | some i => listModify (fun r => setField r f (coerceWidget widget)) i apps
  | none => apps

/-- The fresh record built by the new-application form handler. -/
def newApp (newId company role applied_note : String) : AppRecord :=
  { id := .vstr newId
    company := .vstr company
    role := .vstr role
    status := .vstr "Applied"
    applied_note := .vstr applied_note
    ppt_note := .vstr ""
    ppt_date := .vnone
    ppt_time := .vnone
    test_note := .vstr ""
    test_date := .vnone
    test_time := .vnone }

/-- The `new_app_form` submit handler: Python truthiness of the two text
inputs (`if company and role`) means both must be non-empty; then the new
record (with the freshly generated `uuid4` id passed as `newId`) is
appended and a success banner shown, otherwise an error banner is shown
and the list is untouched. -/
def create (apps : List AppRecord) (newId company role applied_note : String) :
    List AppRecord × Notice :=
  if company ≠ "" ∧ role ≠ "" then
    (apps ++ [newApp newId company role applied_note],
      .successNote ("Added " ++ company ++ " - " ++ role ++ "! Click Save to persist."))
  else
    (apps, .errorNote "Please fill in both Company Name and Role.")

/-! ### Role filtering (`all_roles` / `filtered_apps`) -/

/-- Python `app[-role-] in selected_roles` where `selected_roles` is a list
of strings: a non-string role value compares unequal to every entry. -/
def roleMatches (v : Value) (selected : List String) : Bool :=
  match v with
  | .vstr s => selected.contains s
  | _ => false

/-- The `filtered_apps` computation: an empty multiselect
(`if selected_roles:` falsy) yields the empty list; otherwise the list
comprehension keeps, in order, the records whose role is selected. -/
def filtered_apps (apps : List AppRecord) (selected : List String) :
    List AppRecord :=
  if selected = [] then []
  else apps.filter (fun r => roleMatches r.role selected)

/-! ### Persistence adapter (`save_data` / `load_data`) -/

/-- The remote worksheet: a list of data rows, each a list of cells;
`none` is a blank cell (what pandas reads as NaN and what `conn.update`
writes for `None`).  The header row is managed by the connector and not
modelled. -/
abbrev Sheet := List (List (Option String))

/-- A date-column cell on save:
`x.isoformat() if isinstance(x, datetime.date) else None` — any value that
is not a native date becomes a blank cell. -/
def serDate : Value → Option String
  | .vdate d => some (dateIso d)
  | _ => none

/-- A time-column cell on save:
`x.isoformat() if isinstance(x, datetime.time) else None`. -/
def serTime : Value → Option String
  | .vtime t => some (timeIso t)
  | _ => none

/-- A plain (id / text / status) cell on save: strings pass through, `None`
becomes a blank cell.  (Date or time objects in a text column never occur
on the save path exercised here; the connector would stringify them.) -/
def serCell : Value → Option String
  | .vstr s => some s
  | .vnone => none
  | .vdate d => some (dateIso d)
  | .vtime t => some (timeIso t)

/-- One record projected onto the fixed 11-column order `all_cols` of
`save_data`: id, company, role, status, applied_note, ppt_note, ppt_date,
ppt_time, test_note, test_date, test_time. -/
def saveRow (r : AppRecord) : List (Option String) :=
  [serCell r.id, serCell r.company, serCell r.role, serCell r.status,
   serCell r.applied_note, serCell r.ppt_note,
   serDate r.ppt_date, serTime r.ppt_time,
   serCell r.test_note, serDate r.test_date, serTime r.test_time]

/-- Model of `save_data` up to the remote write: builds the DataFrame and the rows
to upload.  For the empty store `pd.DataFrame([])` has no columns at all,
so the very first conversion line `df[-ppt_date-] = df[-ppt_date-].apply(…)`
raises `KeyError` (the `for col in all_cols: if col not in df.columns`
repair loop comes only after these conversions), the exception is caught
by the surrounding `try/except`, an error banner is shown, and nothing is
written.  For a non-empty store every record dict has all 11 keys, the
conversions and the `df[all_cols]` reorder succeed, and the rows are the
per-record projections in list order. -/
def save_data (apps : List AppRecord) : Except String Sheet :=
  if apps = [] then .error "KeyError: ppt_date"
  else .ok (apps.map saveRow)

/-- The full effect of a save on the remote sheet: on success the sheet is
cleared and rewritten from scratch (`conn.clear` then `conn.update`), so
the previous contents are discarded entirely; on the (local, pre-clear)
failure the previous contents remain. -/
def saveToSheet (prev : Sheet) (apps : List AppRecord) : Sheet :=
  match save_data apps with
  | .ok rows => rows
  | .error _ => prev

/-- Cell of a row at a column index (missing ⇒ blank). -/
def cellAt (row : List (Option String)) (i : Nat) : Option String :=
  (row.get? i).join

/-- A row whose cells are all blank (dropped by `dropna(how=all)`). -/
def rowBlank (row : List (Option String)) : Bool :=
  row.all (fun c => c.isNone)

/-- A plain cell on load: NaN (blank) becomes `None` via
`df.where(pd.notnull(df), None)`, strings pass through. -/
def strCell : Option String → Value
  | some s => .vstr s
  | none => .vnone

/-- A date cell on load: `pd.to_datetime(...).dt.date` with coercion of
errors, then NaT becomes `None`. -/
def dateCell : Option String → Value
  | some s =>
    match parseDateStr s with
    | some d => .vdate d
    | none => .vnone
  | none => .vnone

/-- A time cell on load: `pd.to_datetime(...).dt.time` with the strict
format `%H:%M:%S` and coercion of errors, then NaT becomes `None`. -/
def timeCell : Option String → Value
  | some s =>
    match parseTimeStr s with
    | some t => .vtime t
    | none => .vnone
  | none => .vnone

/-- One sheet row converted back to a record dict by `load_data`'s column
conversions and `to_dict(records)`. -/
def loadRow (row : List (Option String)) : AppRecord :=
  { id := strCell (cellAt row 0)
    company := strCell (cellAt row 1)
    role := strCell (cellAt row 2)
    status := strCell (cellAt row 3)
    applied_note := strCell (cellAt row 4)
    ppt_note := strCell (cellAt row 5)
    ppt_date := dateCell (cellAt row 6)
    ppt_time := timeCell (cellAt row 7)
    test_note := strCell (cellAt row 8)
    test_date := dateCell (cellAt row 9)
    test_time := timeCell (cellAt row 10) }

/-- The body of `load_data` on a successfully read sheet: drop all-blank
rows, convert the date/time columns with coercion, replace NaN/NaT by
`None`, return the record dicts. -/
def load_data (sheet : Sheet) : List AppRecord :=
  (sheet.filter (fun row => !rowBlank row)).map loadRow

/-- Test `startsWith needle hay`: is `needle` an initial segment of `hay`? -/
def startsWith : List Char → List Char → Bool
  | [], _ => true
  | _ :: _, [] => false
  | a :: as, b :: bs => a = b && startsWith as bs

/-- Substring test (Python `needle in haystack`). -/
def hasSub (needle : List Char) : List Char → Bool
  | [] => needle.isEmpty
  | b :: bs => startsWith needle (b :: bs) || hasSub needle bs

/-- The error banner chosen by `load_data`'s `except` branch: a special
text when the exception mentions `SPREADSHEET_NOT_FOUND`, a generic text
(interpolating the exception) otherwise.  Texts abbreviated (the source
messages contain quote characters). -/
def loadErrNote (e : String) : Notice :=
  if hasSub "SPREADSHEET_NOT_FOUND".toList e.toList then
    .errorNote "Error: Spreadsheet not found. Did you set the spreadsheet URL in Streamlit Secrets and share the sheet?"
  else
    .errorNote ("Failed to load from Google Sheet. Did you set it up correctly? Error: " ++ e)

/-- Model of `load_data` including its `try/except`: the argument is the outcome of
the remote read (`conn.read` + DataFrame construction), `.error e`
modelling a raised exception.  On failure the store is the empty list and
an error banner is shown; on success the parsed records are returned with
no banner. -/
def sessionLoad (readResult : Except String Sheet) :
    List AppRecord × Option Notice :=
  match readResult with
  | .ok sheet => (load_data sheet, none)
  | .error e => ([], some (loadErrNote e))

/-! ### Digit and split lemmas -/

theorem digitChar_isDigit (n : Nat) : (digitChar n).isDigit = true := by
  unfold digitChar; split <;> decide

theorem digitChar_ne_dash (n : Nat) : digitChar n ≠ '-' := by
  unfold digitChar; split <;> decide

theorem digitChar_ne_colon (n : Nat) : digitChar n ≠ ':' := by
  unfold digitChar; split <;> decide

theorem digitChar_toNat (n : Nat) (h : n < 10) : (digitChar n).toNat = 48 + n := by
  interval_cases n <;> decide

theorem dash_not_mem_pad4 (n : Nat) : '-' ∉ pad4L n := by
  simp only [pad4L, List.mem_cons, List.not_mem_nil, or_false]
  push_neg
  exact ⟨fun h => digitChar_ne_dash _ h.symm, fun h => digitChar_ne_dash _ h.symm,
    fun h => digitChar_ne_dash _ h.symm, fun h => digitChar_ne_dash _ h.symm⟩

theorem dash_not_mem_pad2 (n : Nat) : '-' ∉ pad2L n := by
  simp only [pad2L, List.mem_cons, List.not_mem_nil, or_false]
  push_neg
  exact ⟨fun h => digitChar_ne_dash _ h.symm, fun h => digitChar_ne_dash _ h.symm⟩

theorem colon_not_mem_pad2 (n : Nat) : ':' ∉ pad2L n := by
  simp only [pad2L, List.mem_cons, List.not_mem_nil, or_false]
  push_neg
  exact ⟨fun h => digitChar_ne_colon _ h.symm, fun h => digitChar_ne_colon _ h.symm⟩

theorem splitOnChar_ne_nil (c : Char) (l : List Char) : splitOnChar c l ≠ [] := by
  induction l with
  | nil => simp [splitOnChar]
  | cons a as ih =>
    unfold splitOnChar
    by_cases h : a = c
    · simp [h]
    · simp only [h, if_false]
      cases hs : splitOnChar c as <;> simp

theorem splitOnChar_append (c : Char) (l1 l2 : List Char) (h : c ∉ l1) :
    splitOnChar c (l1 ++ c :: l2) = l1 :: splitOnChar c l2 := by
  induction l1 with
  | nil => simp [splitOnChar]
  | cons a as ih =>
    have ha : a ≠ c := fun hac => h (hac ▸ List.mem_cons_self a as)
    have has : c ∉ as := fun hm => h (List.mem_cons_of_mem a hm)
    simp only [List.cons_append]
    show (if a = c then [] :: splitOnChar c (as ++ c :: l2)
      else match splitOnChar c (as ++ c :: l2) with
        | [] => [[a]]
        | h :: t => (a :: h) :: t) = (a :: as) :: splitOnChar c l2
    rw [if_neg ha, ih has]

theorem splitOnChar_of_not_mem (c : Char) (l : List Char) (h : c ∉ l) :
    splitOnChar c l = [l] := by
  induction l with
  | nil => rfl
  | cons a as ih =>
    have ha : a ≠ c := fun hac => h (hac ▸ List.mem_cons_self a as)
    have has : c ∉ as := fun hm => h (List.mem_cons_of_mem a hm)
    unfold splitOnChar
    simp only [ha, if_false, ih has]

theorem digitsToNat_pad2 (n : Nat) (h : n < 100) :
    digitsToNat? (pad2L n) = some n := by
  have h1 : n / 10 % 10 < 10 := Nat.mod_lt _ (by omega)
  have h2 : n % 10 < 10 := Nat.mod_lt _ (by omega)
  simp only [digitsToNat?, isDigits, pad2L, List.isEmpty_cons, Bool.not_false,
    List.all_cons, List.all_nil, digitChar_isDigit, Bool.and_self, Bool.and_true,
    Bool.true_and, if_true, digitsVal, List.foldl_cons, List.foldl_nil,
    digitChar_toNat _ h1, digitChar_toNat _ h2]
  congr 1
  omega

theorem digitsToNat_pad4 (n : Nat) (h : n < 10000) :
    digitsToNat? (pad4L n) = some n := by
  have h1 : n / 1000 % 10 < 10 := Nat.mod_lt _ (by omega)
  have h2 : n / 100 % 10 < 10 := Nat.mod_lt _ (by omega)
  have h3 : n / 10 % 10 < 10 := Nat.mod_lt _ (by omega)
  have h4 : n % 10 < 10 := Nat.mod_lt _ (by omega)
  simp only [digitsToNat?, isDigits, pad4L, List.isEmpty_cons, Bool.not_false,
    List.all_cons, List.all_nil, digitChar_isDigit, Bool.and_self, Bool.and_true,
    Bool.true_and, if_true, digitsVal, List.foldl_cons, List.foldl_nil,
    digitChar_toNat _ h1, digitChar_toNat _ h2, digitChar_toNat _ h3,
    digitChar_toNat _ h4]
  congr 1
  omega

/-! ### Parse/print round-trip lemmas -/

theorem parseDateL_dateIsoL (d : PyDate) (h : TsDate d) :
    parseDateL (dateIsoL d) = some d := by
  obtain ⟨⟨hy1, hy2, hm1, hm2, hd1, hd2⟩, hlo, hhi⟩ := h
  have hdm : d.day < 100 := by
    have : daysInMonth d.year d.month ≤ 31 := by
      unfold daysInMonth
      split
      · split <;> omega
      · split <;> omega
    omega
  have e1 : splitOnChar '-' (dateIsoL d) =
      [pad4L d.year, pad2L d.month, pad2L d.day] := by
    unfold dateIsoL
    rw [splitOnChar_append _ _ _ (dash_not_mem_pad4 _),
      splitOnChar_append _ _ _ (dash_not_mem_pad2 _),
      splitOnChar_of_not_mem _ _ (dash_not_mem_pad2 _)]
  have r1 : digitsToNat? (pad4L d.year) = some d.year :=
    digitsToNat_pad4 _ (by omega)
  have r2 : digitsToNat? (pad2L d.month) = some d.month :=
    digitsToNat_pad2 _ (by omega)
  have r3 : digitsToNat? (pad2L d.day) = some d.day :=
    digitsToNat_pad2 _ (by omega)
  have hl2 : ∀ n, (pad2L n).length = 2 := fun _ => rfl
  have hl4 : ∀ n, (pad4L n).length = 4 := fun _ => rfl
  have hcond : (pad4L d.year).length = 4 ∧ 1 ≤ (pad2L d.month).length ∧
      (pad2L d.month).length ≤ 2 ∧ 1 ≤ (pad2L d.day).length ∧
      (pad2L d.day).length ≤ 2 := by
    rw [hl2, hl2, hl4]
    omega
  have htd : TsDate ⟨d.year, d.month, d.day⟩ :=
    ⟨⟨hy1, hy2, hm1, hm2, hd1, hd2⟩, hlo, hhi⟩
  unfold parseDateL
  rw [e1]
  simp only [r1, r2, r3, if_pos hcond, if_pos htd]

theorem parseTimeL_timeIsoL (t : PyTime) (h : ValidTime t) :
    parseTimeL (timeIsoL t) = some t := by
  obtain ⟨hh, hm, hs⟩ := h
  have e1 : splitOnChar ':' (timeIsoL t) =
      [pad2L t.hour, pad2L t.minute, pad2L t.second] := by
    unfold timeIsoL
    rw [splitOnChar_append _ _ _ (colon_not_mem_pad2 _),
      splitOnChar_append _ _ _ (colon_not_mem_pad2 _),
      splitOnChar_of_not_mem _ _ (colon_not_mem_pad2 _)]
  have r1 : digitsToNat? (pad2L t.hour) = some t.hour :=
    digitsToNat_pad2 _ (by omega)
  have r2 : digitsToNat? (pad2L t.minute) = some t.minute :=
    digitsToNat_pad2 _ (by omega)
  have r3 : digitsToNat? (pad2L t.second) = some t.second :=
    digitsToNat_pad2 _ (by omega)
  have hl2 : ∀ n, (pad2L n).length = 2 := fun _ => rfl
  have hcond : 1 ≤ (pad2L t.hour).length ∧ (pad2L t.hour).length ≤ 2 ∧
      1 ≤ (pad2L t.minute).length ∧ (pad2L t.minute).length ≤ 2 ∧
      1 ≤ (pad2L t.second).length ∧ (pad2L t.second).length ≤ 2 := by
    rw [hl2, hl2, hl2]
    omega
  unfold parseTimeL
  rw [e1]
  simp only [r1, r2, r3, if_pos hcond, if_pos (⟨hh, hm, hs⟩ : _ ∧ _ ∧ _)]

theorem parseDateStr_dateIso (d : PyDate) (h : TsDate d) :
    parseDateStr (dateIso d) = some d :=
  parseDateL_dateIsoL d h

theorem parseTimeStr_timeIso (t : PyTime) (h : ValidTime t) :
    parseTimeStr (timeIso t) = some t :=
  parseTimeL_timeIsoL t h

/-! ### Well-formed records (the shapes the program itself produces) -/

/-- A text-column value: a string or `None`. -/
def textOkB : Value → Bool
  | .vstr _ => true
  | .vnone => true
  | _ => false

/-- A date-column value the adapter round-trips: `None` or a native date
within the representable range. -/
def dateOkB : Value → Bool
  | .vnone => true
  | .vdate d => decide (TsDate d)
  | _ => false

/-- A time-column value the adapter round-trips: `None` or a valid native
time. -/
def timeOkB : Value → Bool
  | .vnone => true
  | .vtime t => decide (ValidTime t)
  | _ => false

/-- A record as created/edited through the UI: string id, text fields
string or `None`, optional date/time fields native or `None`. -/
def recordOkB (r : AppRecord) : Bool :=
  (match r.id with | .vstr _ => true | _ => false) &&
    textOkB r.company && textOkB r.role && textOkB r.status &&
    textOkB r.applied_note && textOkB r.ppt_note && textOkB r.test_note &&
    dateOkB r.ppt_date && dateOkB r.test_date &&
    timeOkB r.ppt_time && timeOkB r.test_time

/-! ### Per-cell round-trip lemmas -/

theorem strCell_serCell (v : Value) (h : textOkB v = true) :
    strCell (serCell v) = v := by
  cases v <;> simp [textOkB] at h ⊢ <;> rfl

theorem dateCell_serDate (v : Value) (h : dateOkB v = true) :
    dateCell (serDate v) = v := by
  cases v with
  | vnone => rfl
  | vdate d =>
    have hd : TsDate d := of_decide_eq_true (by simpa [dateOkB] using h)
    simp [serDate, dateCell, parseDateStr_dateIso d hd]
  | vstr s => simp [dateOkB] at h
  | vtime t => simp [dateOkB] at h

theorem timeCell_serTime (v : Value) (h : timeOkB v = true) :
    timeCell (serTime v) = v := by
  cases v with
  | vnone => rfl
  | vtime t =>
    have ht : ValidTime t := of_decide_eq_true (by simpa [timeOkB] using h)
    simp [serTime, timeCell, parseTimeStr_timeIso t ht]
  | vstr s => simp [timeOkB] at h
  | vdate d => simp [timeOkB] at h

/-! ### Row-level round-trip lemmas -/

theorem loadRow_saveRow (r : AppRecord) (h : recordOkB r = true) :
    loadRow (saveRow r) = r := by
  obtain ⟨id, company, role, status, an, pn, pd, pt, tn, td, tt⟩ := r
  simp only [recordOkB, Bool.and_eq_true] at h
  obtain ⟨⟨⟨⟨⟨⟨⟨⟨⟨⟨hid, hco⟩, hro⟩, hst⟩, han⟩, hpn⟩, htn⟩, hpd⟩, htd⟩, hpt⟩, htt⟩ := h
  have hids : ∃ s, id = Value.vstr s := by
    cases id <;> simp at hid ⊢
  obtain ⟨s, rfl⟩ := hids
  show AppRecord.mk (strCell (serCell (Value.vstr s))) (strCell (serCell company))
    (strCell (serCell role)) (strCell (serCell status)) (strCell (serCell an))
    (strCell (serCell pn)) (dateCell (serDate pd)) (timeCell (serTime pt))
    (strCell (serCell tn)) (dateCell (serDate td)) (timeCell (serTime tt)) = _
  rw [strCell_serCell _ (by simp [textOkB]), strCell_serCell _ hco,
    strCell_serCell _ hro, strCell_serCell _ hst, strCell_serCell _ han,
    strCell_serCell _ hpn, strCell_serCell _ htn,
    dateCell_serDate _ hpd, dateCell_serDate _ htd,
    timeCell_serTime _ hpt, timeCell_serTime _ htt]

theorem rowBlank_saveRow (r : AppRecord) (h : recordOkB r = true) :
    rowBlank (saveRow r) = false := by
  have hids : ∃ s, r.id = Value.vstr s := by
    cases hid : r.id <;> simp [recordOkB, hid] at h ⊢
  obtain ⟨s, hs⟩ := hids
  simp [rowBlank, saveRow, hs, serCell]

theorem load_data_saveRows (apps : List AppRecord)
    (h : ∀ r ∈ apps, recordOkB r = true) :
    load_data (apps.map saveRow) = apps := by
  induction apps with
  | nil => rfl
  | cons r rs ih =>
    have hr := h r (List.mem_cons_self _ _)
    have hrest : ∀ x ∈ rs, recordOkB x = true :=
      fun x hx => h x (List.mem_cons_of_mem _ hx)
    have ih2 := ih hrest
    unfold load_data at ih2 ⊢
    simp only [List.map_cons, List.filter_cons, rowBlank_saveRow r hr,
      Bool.not_false, if_true, List.map_cons, loadRow_saveRow r hr, ih2]

/-! ### Lemmas about `get_app_index` and list surgery -/

theorem getAppIndexAux_shift (app_id : String) (l : List AppRecord) (i : Nat) :
    getAppIndexAux app_id i l = (getAppIndexAux app_id 0 l).map (· + i) := by
  induction l generalizing i with
  | nil => rfl
  | cons r rs ih =>
    unfold getAppIndexAux
    by_cases h : r.id = .vstr app_id
    · simp [h]
    · simp only [h, if_false]
      rw [ih (i + 1), ih 1]
      cases getAppIndexAux app_id 0 rs with
      | none => simp
      | some k => simp; omega

theorem get_app_index_cons (r : AppRecord) (rs : List AppRecord)
    (app_id : String) :
    get_app_index (r :: rs) app_id =
      if r.id = .vstr app_id then some 0
      else (get_app_index rs app_id).map (· + 1) := by
  show (if r.id = .vstr app_id then some 0 else getAppIndexAux app_id 1 rs) = _
  by_cases h : r.id = .vstr app_id
  · simp [h]
  · simp only [h, if_false]
    exact getAppIndexAux_shift app_id rs 1

theorem get_app_index_eq_none_iff (apps : List AppRecord) (app_id : String) :
    get_app_index apps app_id = none ↔ ∀ r ∈ apps, r.id ≠ .vstr app_id := by
  induction apps with
  | nil => simp [get_app_index, getAppIndexAux]
  | cons r rs ih =>
    rw [get_app_index_cons]
    by_cases h : r.id = .vstr app_id
    · simp [h]
    · simp [h, ih]

theorem get_app_index_some (apps : List AppRecord) (app_id : String) (i : Nat)
    (h : get_app_index apps app_id = some i) :
    ∃ r, apps.get? i = some r ∧ r.id = .vstr app_id := by
  induction apps generalizing i with
  | nil => simp [get_app_index, getAppIndexAux] at h
  | cons r rs ih =>
    rw [get_app_index_cons] at h
    by_cases hr : r.id = .vstr app_id
    · simp [hr] at h
      exact ⟨r, by rw [← h]; rfl, hr⟩
    · simp only [hr, if_false] at h
      cases hj : get_app_index rs app_id with
      | none => simp [hj] at h
      | some j =>
        simp [hj] at h
        obtain ⟨x, hx1, hx2⟩ := ih j hj
        exact ⟨x, by rw [← h]; exact hx1, hx2⟩

theorem listModify_get?_same (f : α → α) (i : Nat) (l : List α) :
    (listModify f i l).get? i = (l.get? i).map f := by
  induction l generalizing i with
  | nil => simp [listModify]
  | cons a as ih =>
    cases i with
    | zero => simp [listModify]
    | succ n => simpa [listModify] using ih n

theorem get_app_index_listModify (f : AppRecord → AppRecord)
    (hf : ∀ r, (f r).id = r.id) (i : Nat) (l : List AppRecord)
    (app_id : String) :
    get_app_index (listModify f i l) app_id = get_app_index l app_id := by
  induction l generalizing i with
  | nil => cases i <;> rfl
  | cons r rs ih =>
    cases i with
    | zero =>
      show get_app_index (f r :: rs) app_id = _
      rw [get_app_index_cons, get_app_index_cons, hf r]
    | succ n =>
      show get_app_index (r :: listModify f n rs) app_id = _
      rw [get_app_index_cons, get_app_index_cons, ih n]

/-! ### Shared concrete data and derived predicates -/

/-- Pairwise-distinct record ids (the store invariant maintained by
`uuid4` generation). -/
def DistinctIds (apps : List AppRecord) : Prop :=
  apps.Pairwise (fun a b => a.id ≠ b.id)

/-- A one-record store used to instantiate theorems. -/
def demoApps : List AppRecord := [newApp "a" "Acme" "SWE" ""]

theorem get_app_index_listRemove (apps : List AppRecord) (appId : String)
    (i : Nat) (hd : DistinctIds apps) (hi : get_app_index apps appId = some i) :
    ∀ r ∈ listRemove i apps, r.id ≠ .vstr appId := by
  induction apps generalizing i with
  | nil => simp [get_app_index, getAppIndexAux] at hi
  | cons r rs ih =>
    rw [get_app_index_cons] at hi
    rw [DistinctIds, List.pairwise_cons] at hd
    by_cases hr : r.id = .vstr appId
    · simp only [hr, if_true] at hi
      have : i = 0 := by simpa using hi.symm
      subst this
      intro x hx
      have := hd.1 x hx
      rw [hr] at this
      exact fun hxid => this (by rw [hxid])
    · simp only [hr, if_false] at hi
      cases hj : get_app_index rs appId with
      | none => simp [hj] at hi
      | some j =>
        simp only [hj] at hi
        have hij : i = j + 1 := by simpa using hi.symm
        subst hij
        intro x hx
        simp only [listRemove, List.mem_cons] at hx
        rcases hx with rfl | hx
        · exact hr
        · exact ih j hd.2 hj x hx

/-! ### Claim theorems -/

/-- C1 (counterexample): the round-trip property fails for the empty
store: `pd.DataFrame([])` has no columns, so `save_data` raises `KeyError`
on the first date-conversion line and nothing is ever written — there is
no saved sheet to load back. -/
theorem c1_counterexample :
    ¬ ∃ rows, save_data [] = Except.ok rows ∧ load_data rows = [] := by
  rintro ⟨rows, h, -⟩
  simp [save_data] at h

/-- C1 (amended): for every NON-EMPTY store whose records are well formed
(string id, text fields string or `None`, date/time fields native-or-`None`
within representable bounds), saving to the tabular form and loading it
back reproduces exactly the same list of records — ids, text fields and
date/time fields all equal. -/
theorem c1_round_trip (apps : List AppRecord) (hne : apps ≠ [])
    (hwf : ∀ r ∈ apps, recordOkB r = true) :
    ∃ rows, save_data apps = Except.ok rows ∧ load_data rows = apps :=
  ⟨apps.map saveRow, by simp [save_data, hne], load_data_saveRows apps hwf⟩

/-- C1 (witness): the round trip at a concrete one-record store. -/
theorem c1_round_trip_witness :
    ∃ rows, save_data demoApps = Except.ok rows ∧ load_data rows = demoApps :=
  c1_round_trip demoApps (by simp [demoApps]) (by decide)

/-- C2: creating with an empty company or role shows the validation error
banner and leaves the store untouched; with both non-empty it appends
exactly one new record (id the freshly generated uuid, status `Applied`)
after the unchanged existing records, and a fresh id keeps the ids
pairwise distinct. -/
theorem c2_create (apps : List AppRecord) (newId c role note : String) :
    ((c = "" ∨ role = "") → create apps newId c role note =
      (apps, .errorNote "Please fill in both Company Name and Role.")) ∧
    (c ≠ "" → role ≠ "" →
      create apps newId c role note =
        (apps ++ [newApp newId c role note],
          .successNote ("Added " ++ c ++ " - " ++ role ++ "! Click Save to persist.")) ∧
      (newApp newId c role note).status = .vstr "Applied" ∧
      (newApp newId c role note).id = .vstr newId ∧
      (DistinctIds apps → (∀ r ∈ apps, r.id ≠ .vstr newId) →
        DistinctIds (apps ++ [newApp newId c role note]))) := by
  constructor
  · intro h
    unfold create
    rw [if_neg (by tauto)]
  · intro hc hr
    refine ⟨by simp [create, hc, hr], rfl, rfl, ?_⟩
    intro hd hfresh
    rw [DistinctIds, List.pairwise_append]
    refine ⟨hd, List.pairwise_singleton _ _, ?_⟩
    intro a ha b hb
    simp only [List.mem_singleton] at hb
    subst hb
    exact hfresh a ha

/-- C2 (witness): creation at concrete inputs — the failing empty-company
case and the successful case. -/
theorem c2_create_witness :
    create [] "u1" "" "SWE" "" =
      ([], .errorNote "Please fill in both Company Name and Role.") ∧
    create [] "u1" "Acme" "SWE" "n" =
      ([newApp "u1" "Acme" "SWE" "n"],
        .successNote ("Added " ++ "Acme" ++ " - " ++ "SWE" ++ "! Click Save to persist.")) :=
  ⟨(c2_create [] "u1" "" "SWE" "").1 (Or.inl rfl),
    ((c2_create [] "u1" "Acme" "SWE" "n").2 (by decide) (by decide)).1⟩

/-- C3 (counterexample): operations on an absent id are SILENT no-ops, not
`NotFoundError` failures: the store is unchanged but no error banner (or
notice of any kind) is produced — including the second of two deletes of
the same id. -/
theorem c3_counterexample :
    move_app demoApps "zzz" "PPT" = (demoApps, none) ∧
    delete_app demoApps "zzz" = (demoApps, none) ∧
    update_app_field demoApps "zzz" .applied_note (.vstr "note") = demoApps ∧
    delete_app (delete_app demoApps "a").1 "a" =
      ((delete_app demoApps "a").1, none) :=
  ⟨rfl, rfl, rfl, rfl⟩

/-- C3 (amended): for every id not present in the store, `move_app`,
`update_app_field` and `delete_app` leave the store unchanged and surface
no notice at all (a silent no-op — the `if index is not None` guards have
no else branch, so no `NotFoundError`-like error is raised); and with
pairwise-distinct ids, after one delete the id is absent, so the second
delete is such a silent no-op. -/
theorem c3_absent_id_noop (apps : List AppRecord) (appId ns : String)
    (f : Field) (v : Value) :
    (get_app_index apps appId = none →
      move_app apps appId ns = (apps, none) ∧
      delete_app apps appId = (apps, none) ∧
      update_app_field apps appId f v = apps) ∧
    (DistinctIds apps →
      get_app_index ((delete_app apps appId).1) appId = none) := by
  constructor
  · intro h
    refine ⟨?_, ?_, ?_⟩
    · unfold move_app; rw [h]
    · unfold delete_app; rw [h]
    · unfold update_app_field; rw [h]
  · intro hd
    cases hi : get_app_index apps appId with
    | none =>
      unfold delete_app
      rw [hi]
      exact hi
    | some i =>
      have h1 : (delete_app apps appId).1 = listRemove i apps := by
        unfold delete_app; rw [hi]
      rw [h1]
      exact (get_app_index_eq_none_iff _ _).mpr
        (get_app_index_listRemove apps appId i hd hi)

/-- C3 (witness): the amended statement at concrete inputs. -/
theorem c3_absent_id_noop_witness :
    (move_app [] "x" "PPT" = ([], none) ∧
      delete_app [] "x" = ([], none) ∧
      update_app_field [] "x" .ppt_date (.vstr "s") = []) ∧
    get_app_index ((delete_app demoApps "a").1) "a" = none :=
  ⟨(c3_absent_id_noop [] "x" "PPT" .ppt_date (.vstr "s")).1 rfl,
    (c3_absent_id_noop demoApps "a" "PPT" .ppt_date (.vstr "s")).2
      (by simp [DistinctIds, demoApps])⟩

/-- C4: for a record present in the store, `move_app` overwrites `status`
unconditionally, so `move(id, S)` then `move(id, T)` leaves the record's
status equal to `T`, for any statuses S, T of the enum — no transition is
forbidden. -/
theorem c4_move_overwrites (apps : List AppRecord) (appId S T : String)
    (_hS : S ∈ ["Applied", "PPT", "Test"]) (_hT : T ∈ ["Applied", "PPT", "Test"])
    (i : Nat) (hi : get_app_index apps appId = some i) :
    ∃ r, ((move_app (move_app apps appId S).1 appId T).1).get? i = some r ∧
      r.status = .vstr T := by
  obtain ⟨r0, hr0, -⟩ := get_app_index_some apps appId i hi
  have hmove : ∀ (l : List AppRecord) (ns : String),
      get_app_index l appId = some i →
      (move_app l appId ns).1 =
        listModify (fun r => { r with status := .vstr ns }) i l := by
    intro l ns hidx
    unfold move_app; rw [hidx]
  have hpres : get_app_index (move_app apps appId S).1 appId = some i := by
    rw [hmove apps S hi,
      get_app_index_listModify (fun r => { r with status := .vstr S })
        (fun r => rfl) i apps appId, hi]
  rw [hmove _ T hpres, listModify_get?_same, hmove apps S hi,
    listModify_get?_same, hr0]
  exact ⟨_, rfl, rfl⟩

/-- C4 (witness): move a concrete record to PPT then to Test; its status
is Test. -/
theorem c4_move_overwrites_witness :
    ∃ r, ((move_app (move_app demoApps "a" "PPT").1 "a" "Test").1).get? 0 =
      some r ∧ r.status = .vstr "Test" :=
  c4_move_overwrites demoApps "a" "PPT" "Test" (by decide) (by decide) 0 rfl

/-- The concrete sheet row holding the malformed time string of the spec's
example: `ppt_time` cell is `25:99:99`. -/
def badTimeRow : List (Option String) :=
  [some "a", some "Acme", some "SWE", some "Applied",
   none, none, none, some "25:99:99", none, none, none]

/-- C5 (counterexample): loading a row whose `ppt_time` cell is the
malformed string `25:99:99` does NOT raise any error: the coercion mode of
`pd.to_datetime` turns it into NaT and `df.where(pd.notnull(df), None)` into `None`, so the
load succeeds and silently substitutes an absent value — exactly what the
claim says must not happen. -/
theorem c5_counterexample :
    load_data [badTimeRow] =
      [{ id := .vstr "a", company := .vstr "Acme", role := .vstr "SWE",
         status := .vstr "Applied", applied_note := .vnone, ppt_note := .vnone,
         ppt_date := .vnone, ppt_time := .vnone, test_note := .vnone,
         test_date := .vnone, test_time := .vnone }] := rfl

/-- C5 (amended): a stored time string that the `%H:%M:%S` parse rejects
is coerced to the absent value `None` on load: the load succeeds (no
`DeserializationError` exists in the program), and the field is neither a
midnight default nor any other time-of-day value. -/
theorem c5_malformed_time_absent (row : List (Option String)) (s : String)
    (hcell : cellAt row 7 = some s) (hbad : parseTimeStr s = none)
    (hnb : rowBlank row = false) :
    load_data [row] = [loadRow row] ∧ (loadRow row).ppt_time = .vnone ∧
      ∀ t, (loadRow row).ppt_time ≠ .vtime t := by
  refine ⟨by simp [load_data, hnb], ?_, ?_⟩
  · show timeCell (cellAt row 7) = .vnone
    rw [hcell]
    simp [timeCell, hbad]
  · intro t
    show timeCell (cellAt row 7) ≠ _
    rw [hcell]
    simp [timeCell, hbad]

/-- C5 (witness): the amended statement at the concrete `25:99:99` row. -/
theorem c5_malformed_time_absent_witness :
    load_data [badTimeRow] = [loadRow badTimeRow] ∧
      (loadRow badTimeRow).ppt_time = .vnone ∧
      ∀ t, (loadRow badTimeRow).ppt_time ≠ .vtime t :=
  c5_malformed_time_absent badTimeRow "25:99:99" rfl rfl rfl

/-- C6: role filtering — an empty selection yields the empty sequence even
on a non-empty store; a selection covering every role present yields the
whole store in original order; in general the result is exactly the
records whose role is selected, as an order-preserving sublist. -/
theorem c6_filtered_apps (apps : List AppRecord) (selected : List String) :
    filtered_apps apps [] = [] ∧
    ((∀ r ∈ apps, roleMatches r.role selected = true) →
      filtered_apps apps selected = apps) ∧
    (∀ r, r ∈ filtered_apps apps selected ↔
      (selected ≠ [] ∧ r ∈ apps ∧ roleMatches r.role selected = true)) ∧
    (filtered_apps apps selected).Sublist apps := by
  refine ⟨by simp [filtered_apps], ?_, ?_, ?_⟩
  · intro hall
    by_cases hsel : selected = []
    · subst hsel
      cases apps with
      | nil => rfl
      | cons r rs =>
        have := hall r (List.mem_cons_self _ _)
        cases hrole : r.role <;> simp [roleMatches, hrole] at this
    · rw [filtered_apps, if_neg hsel]
      exact List.filter_eq_self.mpr hall
  · intro r
    by_cases hsel : selected = []
    · simp [filtered_apps, hsel]
    · simp [filtered_apps, hsel, List.mem_filter, and_comm]
  · rw [filtered_apps]
    by_cases hsel : selected = []
    · simp [hsel]
    · rw [if_neg hsel]
      exact List.filter_sublist _

/-- C6 (witness): selecting the one role present returns the whole
store. -/
theorem c6_filtered_apps_witness :
    filtered_apps demoApps ["SWE"] = demoApps :=
  (c6_filtered_apps demoApps ["SWE"]).2.1 (by decide)

/-- C7 (counterexample): for the EMPTY store the clear-then-rewrite never
happens: `save_data` fails before any remote call (KeyError on the missing
`ppt_date` column of the empty DataFrame), so the previous sheet contents
survive instead of being cleared and rewritten as the empty projection. -/
theorem c7_counterexample :
    saveToSheet [[some "old"]] [] = [[some "old"]] ∧
    ([[some "old"]] : Sheet) ≠ [] ∧
    (save_data []).isOk = false :=
  ⟨rfl, by simp, rfl⟩

/-- C7 (amended): for every NON-EMPTY store, saving projects each record
into exactly the 11 fixed columns in the fixed order (id, company, role,
status, applied_note, ppt_note, ppt_date, ppt_time, test_note, test_date,
test_time), writing absent fields as blank cells rather than omitting
columns, and the resulting sheet replaces the previous contents entirely
(clear-then-rewrite — the result is independent of what was on the sheet
before, no incremental diffing); for the empty store the save fails and
leaves the sheet unchanged. -/
theorem c7_save_projection (apps : List AppRecord) (prev prev2 : Sheet)
    (r : AppRecord) (hne : apps ≠ []) :
    save_data apps = Except.ok (apps.map saveRow) ∧
    saveToSheet prev apps = apps.map saveRow ∧
    saveToSheet prev apps = saveToSheet prev2 apps ∧
    (saveRow r).length = 11 ∧
    cellAt (saveRow r) 0 = serCell r.id ∧
    cellAt (saveRow r) 1 = serCell r.company ∧
    cellAt (saveRow r) 2 = serCell r.role ∧
    cellAt (saveRow r) 3 = serCell r.status ∧
    cellAt (saveRow r) 4 = serCell r.applied_note ∧
    cellAt (saveRow r) 5 = serCell r.ppt_note ∧
    cellAt (saveRow r) 6 = serDate r.ppt_date ∧
    cellAt (saveRow r) 7 = serTime r.ppt_time ∧
    cellAt (saveRow r) 8 = serCell r.test_note ∧
    cellAt (saveRow r) 9 = serDate r.test_date ∧
    cellAt (saveRow r) 10 = serTime r.test_time ∧
    (r.ppt_date = .vnone → cellAt (saveRow r) 6 = none) ∧
    (r.ppt_time = .vnone → cellAt (saveRow r) 7 = none) ∧
    (r.test_date = .vnone → cellAt (saveRow r) 9 = none) ∧
    (r.test_time = .vnone → cellAt (saveRow r) 10 = none) ∧
    saveToSheet prev [] = prev := by
  have hok : save_data apps = Except.ok (apps.map saveRow) := by
    simp [save_data, hne]
  refine ⟨hok, by simp [saveToSheet, hok], by simp [saveToSheet, hok],
    rfl, rfl, rfl, rfl, rfl, rfl, rfl, rfl, rfl, rfl, rfl, rfl,
    ?_, ?_, ?_, ?_, rfl⟩
  · intro h
    show serDate r.ppt_date = none
    rw [h]; rfl
  · intro h
    show serTime r.ppt_time = none
    rw [h]; rfl
  · intro h
    show serDate r.test_date = none
    rw [h]; rfl
  · intro h
    show serTime r.test_time = none
    rw [h]; rfl

/-- C7 (witness): the save effect at a concrete store and a concrete
previous sheet. -/
theorem c7_save_projection_witness :
    saveToSheet [[some "old"]] demoApps = demoApps.map saveRow :=
  (c7_save_projection demoApps [[some "old"]] [] (newApp "w" "C" "R" "")
    (by simp [demoApps])).2.1

/-- C8: a failed remote read yields the empty store (never a partially
populated one) together with an error banner — the failure is surfaced as
a labeled condition rather than crashing the session. -/
theorem c8_failed_load_empty (e : String) :
    sessionLoad (Except.error e) = ([], some (loadErrNote e)) ∧
    ∃ m, loadErrNote e = Notice.errorNote m := by
  refine ⟨rfl, ?_⟩
  unfold loadErrNote
  by_cases h : hasSub "SPREADSHEET_NOT_FOUND".toList e.toList = true
  · rw [if_pos h]
    exact ⟨_, rfl⟩
  · rw [if_neg h]
    exact ⟨_, rfl⟩

/-- C9: the string-sniffing coercion applied to every raw string supplied
to a field update: a string with a colon and at most 8 characters is
parsed as a time-of-day (kept raw if the parse fails); otherwise a string
with a dash is parsed as a calendar date (kept raw if the parse fails);
otherwise the raw string is stored unchanged — and the updated record
stores exactly the coerced value. -/
theorem c9_sniffing (s : String) (apps : List AppRecord) (appId : String)
    (f : Field) (i : Nat) :
    (s.toList.contains ':' = true → s.length ≤ 8 →
      (∃ t, timeFromIso s = some t ∧ coerceRaw s = .vtime t) ∨
        (timeFromIso s = none ∧ coerceRaw s = .vstr s)) ∧
    ((s.toList.contains ':' = false ∨ 8 < s.length) →
      s.toList.contains '-' = true →
      (∃ d, dateFromIso s = some d ∧ coerceRaw s = .vdate d) ∨
        (dateFromIso s = none ∧ coerceRaw s = .vstr s)) ∧
    ((s.toList.contains ':' = false ∨ 8 < s.length) →
      s.toList.contains '-' = false → coerceRaw s = .vstr s) ∧
    (get_app_index apps appId = some i →
      (update_app_field apps appId f (.vstr s)).get? i =
        (apps.get? i).map (fun r => setField r f (coerceRaw s))) := by
  have hnot : (s.toList.contains ':' = false ∨ 8 < s.length) →
      ¬(s.toList.contains ':' = true ∧ s.length ≤ 8) := by
    rintro (h | h) ⟨h1, h2⟩
    · rw [h1] at h; cases h
    · omega
  refine ⟨?_, ?_, ?_, ?_⟩
  · intro h1 h2
    unfold coerceRaw
    rw [if_pos ⟨h1, h2⟩]
    cases ht : timeFromIso s with
    | some t => exact Or.inl ⟨t, rfl, rfl⟩
    | none => exact Or.inr ⟨rfl, rfl⟩
  · intro h hdash
    unfold coerceRaw
    rw [if_neg (hnot h), if_pos hdash]
    cases hd : dateFromIso s with
    | some d => exact Or.inl ⟨d, rfl, rfl⟩
    | none => exact Or.inr ⟨rfl, rfl⟩
  · intro h hdash
    unfold coerceRaw
    rw [if_neg (hnot h), if_neg (by rw [hdash]; exact fun hc => by cases hc)]
  · intro hidx
    unfold update_app_field
    rw [hidx]
    exact listModify_get?_same _ i apps

/-- C9 (witness): the first branch at the concrete string `10:30:00`
(8 characters, contains a colon, valid ISO time). -/
theorem c9_sniffing_witness :
    (∃ t, timeFromIso "10:30:00" = some t ∧
      coerceRaw "10:30:00" = .vtime t) ∨
    (timeFromIso "10:30:00" = none ∧
      coerceRaw "10:30:00" = .vstr "10:30:00") :=
  (c9_sniffing "10:30:00" [] "x" .ppt_time 0).1 rfl (by decide)

/-- C10: any value in one of the four date/time columns that is not a
native value of that column's kind (for example a raw string kept by the
sniffing fallback) is written as a blank cell by the save projection, so
it is silently lost: after a save/load round trip the field is `None`,
not the original value. -/
theorem c10_nonnative_datetime_lost (r : AppRecord) :
    ((∀ d, r.ppt_date ≠ .vdate d) → r.ppt_date ≠ .vnone →
      cellAt (saveRow r) 6 = none ∧ (loadRow (saveRow r)).ppt_date = .vnone ∧
        (loadRow (saveRow r)).ppt_date ≠ r.ppt_date) ∧
    ((∀ d, r.test_date ≠ .vdate d) → r.test_date ≠ .vnone →
      cellAt (saveRow r) 9 = none ∧ (loadRow (saveRow r)).test_date = .vnone ∧
        (loadRow (saveRow r)).test_date ≠ r.test_date) ∧
    ((∀ t, r.ppt_time ≠ .vtime t) → r.ppt_time ≠ .vnone →
      cellAt (saveRow r) 7 = none ∧ (loadRow (saveRow r)).ppt_time = .vnone ∧
        (loadRow (saveRow r)).ppt_time ≠ r.ppt_time) ∧
    ((∀ t, r.test_time ≠ .vtime t) → r.test_time ≠ .vnone →
      cellAt (saveRow r) 10 = none ∧ (loadRow (saveRow r)).test_time = .vnone ∧
        (loadRow (saveRow r)).test_time ≠ r.test_time) := by
  refine ⟨?_, ?_, ?_, ?_⟩
  · intro h1 h2
    have hser : serDate r.ppt_date = none := by
      cases hv : r.ppt_date with
      | vstr s => rfl
      | vdate d => exact absurd hv (h1 d)
      | vtime t => rfl
      | vnone => exact absurd hv h2
    refine ⟨hser, ?_, ?_⟩
    · show dateCell (serDate r.ppt_date) = .vnone
      rw [hser]; rfl
    · show dateCell (serDate r.ppt_date) ≠ r.ppt_date
      rw [hser]
      exact fun hcon => h2 hcon.symm
  · intro h1 h2
    have hser : serDate r.test_date = none := by
      cases hv : r.test_date with
      | vstr s => rfl
      | vdate d => exact absurd hv (h1 d)
      | vtime t => rfl
      | vnone => exact absurd hv h2
    refine ⟨hser, ?_, ?_⟩
    · show dateCell (serDate r.test_date) = .vnone
      rw [hser]; rfl
    · show dateCell (serDate r.test_date) ≠ r.test_date
      rw [hser]
      exact fun hcon => h2 hcon.symm
  · intro h1 h2
    have hser : serTime r.ppt_time = none := by
      cases hv : r.ppt_time with
      | vstr s => rfl
      | vdate d => rfl
      | vtime t => exact absurd hv (h1 t)
      | vnone => exact absurd hv h2
    refine ⟨hser, ?_, ?_⟩
    · show timeCell (serTime r.ppt_time) = .vnone
      rw [hser]; rfl
    · show timeCell (serTime r.ppt_time) ≠ r.ppt_time
      rw [hser]
      exact fun hcon => h2 hcon.symm
  · intro h1 h2
    have hser : serTime r.test_time = none := by
      cases hv : r.test_time with
      | vstr s => rfl
      | vdate d => rfl
      | vtime t => exact absurd hv (h1 t)
      | vnone => exact absurd hv h2
    refine ⟨hser, ?_, ?_⟩
    · show timeCell (serTime r.test_time) = .vnone
      rw [hser]; rfl
    · show timeCell (serTime r.test_time) ≠ r.test_time
      rw [hser]
      exact fun hcon => h2 hcon.symm

/-- A record whose `ppt_date` holds a raw string (as the sniffing fallback
leaves after a failed parse). -/
def strDateRec : AppRecord :=
  { newApp "u" "Acme" "SWE" "" with ppt_date := .vstr "tbd" }

/-- C10 (witness): the string-valued `ppt_date` of a concrete record is
saved as a blank cell and does not survive the round trip. -/
theorem c10_nonnative_datetime_lost_witness :
    cellAt (saveRow strDateRec) 6 = none ∧
    (loadRow (saveRow strDateRec)).ppt_date = .vnone ∧
    (loadRow (saveRow strDateRec)).ppt_date ≠ strDateRec.ppt_date :=
  (c10_nonnative_datetime_lost strDateRec).1
    (fun d h => by simp [strDateRec, newApp] at h)
    (by simp [strDateRec, newApp])

end PlacementTracker
